import Mathlib

/-!
Verification development for `blacklist_parser.py`, a command-line tool that
fetches a CSV threat-intelligence blacklist, parses its header / data / trailer
regions, groups data rows by category and renders a text report.

The Python functions `get_blacklist`, `parse_header`, `parse_trailer`,
`generate_report`, `parse_blacklist` and the orchestration in `main` are
shallowly embedded below.  Python strings are Lean `String`s (both are
sequences of unicode code points, so `str` indices/slices line up with
`List Char` operations), Python `int` is `Int`, the `None` results are
`Option`, and the observable behaviour of a run is captured by `RunResult`:
the list of strings written to the report stream, the error-level log
messages (in order), and the exception, if any, that escapes the function.

Only error-level log records are modelled (the code also emits info/debug
records, which no property mentions), and log texts keep the fixed message
part of the corresponding `logger.error` call, dropping the `%s`-interpolated
payload.
-/

set_option maxRecDepth 200000

/-- Exceptions that the embedded code can raise: `rows.pop()` on an empty
list raises `IndexError`; `None.strftime(...)` and `None.find(...)` raise
`AttributeError`. -/
inductive PyExn where
  | indexError
  | attributeError
deriving DecidableEq, Repr

/-- Observable outcome of running (part of) the program: the strings written
to the report stream, the error log messages, and an escaping exception. -/
structure RunResult where
  writes : List String
  logs : List String
  exn : Option PyExn
deriving DecidableEq, Repr

/-! ## Python string primitives -/

/-- Helper for `str.find`: index of the first position at which `sub` is a
prefix of the remaining suffix. -/
def findSubAux : List Char → List Char → Nat → Option Nat
  | s, sub, i =>
    if sub.isPrefixOf s then some i
    else
      match s with
      | [] => none
      | _ :: t => findSubAux t sub (i + 1)

/-- Python `s.find(sub)`: index of the first occurrence, `-1` if absent. -/
def pyFind (s sub : String) : Int :=
  match findSubAux s.data sub.data 0 with
  | some n => (n : Int)
  | none => -1

/-- Python `s[:i]`, including the negative-index convention. -/
def pySliceTo (s : String) (i : Int) : String :=
  if 0 ≤ i then ⟨s.data.take i.toNat⟩
  else ⟨s.data.take (s.data.length - (-i).toNat)⟩

/-- Python `s[i:]`, including the negative-index convention. -/
def pySliceFrom (s : String) (i : Int) : String :=
  if 0 ≤ i then ⟨s.data.drop i.toNat⟩
  else ⟨s.data.drop (s.data.length - (-i).toNat)⟩

/-- The line-boundary characters recognised by Python `str.splitlines`. -/
def isLineBreak (c : Char) : Bool :=
  c = '\n' || c = '\r' || c = '\x0b' || c = '\x0c' ||
  c = '\x1c' || c = '\x1d' || c = '\x1e' || c = '\x85' ||
  c = '\u2028' || c = '\u2029'

/-- `splitlines` treats the two-character sequence `\r\n` as a single
boundary; collapsing it to `\n` first lets the splitting worker handle one
character at a time. -/
def normCRLF : List Char → List Char
  | [] => []
  | '\r' :: '\n' :: rest => '\n' :: normCRLF rest
  | c :: rest => c :: normCRLF rest

/-- Worker for `str.splitlines`: `acc` is the current (unterminated) line. -/
def splitlinesAux : List Char → List Char → List String
  | [], acc => if acc.isEmpty then [] else [⟨acc⟩]
  | c :: rest, acc =>
    if isLineBreak c then ⟨acc⟩ :: splitlinesAux rest []
    else splitlinesAux rest (acc ++ [c])

/-- Python `s.splitlines()` (no trailing empty line for a final newline). -/
def pySplitlines (s : String) : List String :=
  splitlinesAux (normCRLF s.data) []

/-- Python `s.strip(c)` for a one-character strip set: remove all leading and
trailing occurrences of `c`. -/
def pyStrip (c : Char) (s : String) : String :=
  ⟨(((s.data.dropWhile (· = c)).reverse.dropWhile (· = c)).reverse)⟩

/-- Rendering used by Python `"%s" % x` when `x` may be `None`. -/
def pyStrName : Option String → String
  | none => "None"
  | some s => s

/-! ## CSV row tokenisation

`csv.reader(rows)` with the default dialect (delimiter `,`, quote char `"`,
doublequote on, non-strict, no escape char), reading from a list of strings
that contain no line-break characters (they come from `splitlines`).
States follow the reader state machine: 0 = start of field,
1 = in unquoted field, 2 = in quoted field, 3 = just saw a quote inside a
quoted field.

A record normally ends at the end of a line, but a quoted field that is
still open when the line ends continues on the next line (the input
strings carry no newline, so nothing separates the joined pieces); when the
input is exhausted inside an open quoted field, the partial record is
emitted (non-strict mode).  A NUL character anywhere raises
`Error("line contains NUL")`, ending iteration; the rows produced before
the failing record stand.  (The 128 KiB field-size limit is not
modelled.) -/

/-- What the state machine has produced when a line ends: a complete
record, an open quoted field carrying over to the next line, or the NUL
error. -/
inductive CsvLineResult where
  | record (fields : List String)
  | continued (acc : List String) (field : List Char)
  | err
deriving DecidableEq, Repr

def csvAux : List Char → Nat → List Char → List String → CsvLineResult
  | [], state, field, acc =>
    if state = 2 then CsvLineResult.continued acc field
    else CsvLineResult.record (acc ++ [⟨field⟩])
  | c :: rest, state, field, acc =>
    if c = '\x00' then CsvLineResult.err
    else if state = 0 then
      if c = '"' then csvAux rest 2 field acc
      else if c = ',' then csvAux rest 0 [] (acc ++ [⟨field⟩])
      else csvAux rest 1 (field ++ [c]) acc
    else if state = 1 then
      if c = ',' then csvAux rest 0 [] (acc ++ [⟨field⟩])
      else csvAux rest 1 (field ++ [c]) acc
    else if state = 2 then
      if c = '"' then csvAux rest 3 field acc
      else csvAux rest 2 (field ++ [c]) acc
    else
      if c = '"' then csvAux rest 2 (field ++ [c]) acc
      else if c = ',' then csvAux rest 0 [] (acc ++ [⟨field⟩])
      else csvAux rest 1 (field ++ [c]) acc

/-- The rows yielded by `csv.reader` over the given lines, together with
whether iteration ended in a `csv.Error`.  `carry` is an open quoted field
(saved fields, partial field) continuing from the previous line; a blank
line at the start of a record yields the empty row, as `csv.reader`
does. -/
def csvReadRows : List String → Option (List String × List Char) → List (List String) × Bool
  | [], none => ([], false)
  | [], some (acc, field) => ([acc ++ [⟨field⟩]], false)
  | line :: rest, none =>
    if line.data = [] then
      (([] : List String) :: (csvReadRows rest none).1, (csvReadRows rest none).2)
    else
      match csvAux line.data 0 [] [] with
      | CsvLineResult.record r => (r :: (csvReadRows rest none).1, (csvReadRows rest none).2)
      | CsvLineResult.continued acc field => csvReadRows rest (some (acc, field))
      | CsvLineResult.err => ([], true)
  | line :: rest, some (acc, field) =>
    match csvAux line.data 2 field acc with
    | CsvLineResult.record r => (r :: (csvReadRows rest none).1, (csvReadRows rest none).2)
    | CsvLineResult.continued acc2 field2 => csvReadRows rest (some (acc2, field2))
    | CsvLineResult.err => ([], true)

/-! ## Timestamp parsing and formatting

`datetime.datetime.strptime(ts, "Last updated: %Y-%m-%d %H:%M:%S (%Z)")`,
modelled from the CPython `_strptime` regular expressions: `%Y` is exactly
four digits, `%m`/`%d`/`%H`/`%M`/`%S` accept two digits in range or a single
digit, `%Z` accepts a time-zone name (here the portable names `UTC`/`GMT`,
case-insensitively; platform-local names are outside the model), the whole
string must be consumed, and the resulting field values must form a valid
`datetime` (year at least 1, day within the month, seconds below 60).
The literal text is matched exactly. -/

structure PyDatetime where
  year : Nat
  month : Nat
  day : Nat
  hour : Nat
  minute : Nat
  second : Nat
deriving DecidableEq, Repr

def digitVal (c : Char) : Nat := c.toNat - 48

def expectLit (lit : List Char) (cs : List Char) : Option (List Char) :=
  if lit.isPrefixOf cs then some (cs.drop lit.length) else none

def expectChar (c : Char) : List Char → Option (List Char)
  | x :: rest => if x = c then some rest else none
  | [] => none

def parseYear4 : List Char → Option (Nat × List Char)
  | a :: b :: c :: d :: rest =>
    if a.isDigit && b.isDigit && c.isDigit && d.isDigit then
      some (((digitVal a * 10 + digitVal b) * 10 + digitVal c) * 10 + digitVal d, rest)
    else none
  | _ => none

/-- Two digits whose value lies in `[lo2, hi2]`, or else a single digit at
least `lo1` (mirroring alternations such as `3[01]|[12]\d|0[1-9]|[1-9]`). -/
def parseNum2or1 (lo2 hi2 lo1 : Nat) : List Char → Option (Nat × List Char)
  | a :: b :: rest =>
    if a.isDigit then
      if b.isDigit then
        let v := digitVal a * 10 + digitVal b
        if lo2 ≤ v && v ≤ hi2 then some (v, rest)
        else if lo1 ≤ digitVal a then some (digitVal a, b :: rest)
        else none
      else if lo1 ≤ digitVal a then some (digitVal a, b :: rest)
      else none
    else none
  | [a] => if a.isDigit && lo1 ≤ digitVal a then some (digitVal a, []) else none
  | [] => none

def isLeapYear (y : Nat) : Bool :=
  (y % 4 = 0 && y % 100 ≠ 0) || y % 400 = 0

def daysInMonth (y m : Nat) : Nat :=
  if m = 2 then (if isLeapYear y then 29 else 28)
  else if m = 4 || m = 6 || m = 9 || m = 11 then 30
  else 31

/-- ASCII lower-casing on code points (for the case-insensitive time-zone
name match). -/
def lowerCode (c : Char) : Nat :=
  if 65 ≤ c.toNat && c.toNat ≤ 90 then c.toNat + 32 else c.toNat

def tzAccepted (cs : List Char) : Bool :=
  cs.map lowerCode = "utc".data.map Char.toNat ||
  cs.map lowerCode = "gmt".data.map Char.toNat

def strptimeLastUpdated (s : String) : Option PyDatetime := do
  let cs ← expectLit "Last updated: ".data s.data
  let (y, cs) ← parseYear4 cs
  let cs ← expectChar '-' cs
  let (mo, cs) ← parseNum2or1 1 12 1 cs
  let cs ← expectChar '-' cs
  let (da, cs) ← parseNum2or1 1 31 1 cs
  let cs ← expectChar ' ' cs
  let (ho, cs) ← parseNum2or1 0 23 0 cs
  let cs ← expectChar ':' cs
  let (mi, cs) ← parseNum2or1 0 59 0 cs
  let cs ← expectChar ':' cs
  let (se, cs) ← parseNum2or1 0 61 0 cs
  let cs ← expectChar ' ' cs
  let cs ← expectChar '(' cs
  let tz := cs.takeWhile (fun c => c ≠ ')')
  let cs ← expectChar ')' (cs.drop tz.length)
  if cs = [] && tzAccepted tz && 1 ≤ y && da ≤ daysInMonth y mo && se ≤ 59 then
    some ⟨y, mo, da, ho, mi, se⟩
  else none

def monthAbbrev : Nat → String
  | 1 => "Jan" | 2 => "Feb" | 3 => "Mar" | 4 => "Apr"
  | 5 => "May" | 6 => "Jun" | 7 => "Jul" | 8 => "Aug"
  | 9 => "Sep" | 10 => "Oct" | 11 => "Nov" | 12 => "Dec"
  | _ => ""

def pad2 (n : Nat) : String :=
  if n < 10 then "0" ++ toString n else toString n

/-- `report_datetime.strftime("%b %d %H:%M:%S %Y")` under the C locale. -/
def strftimeReport (t : PyDatetime) : String :=
  monthAbbrev t.month ++ " " ++ pad2 t.day ++ " " ++ pad2 t.hour ++ ":" ++
    pad2 t.minute ++ ":" ++ pad2 t.second ++ " " ++ toString t.year

/-! ## The grouped blacklist dictionary

`collections.defaultdict(list)`: an insertion-ordered association list from
category to the entries appended under that category. -/

abbrev Dict := List (String × List (String × String))

/-- `blacklist_dict[description].append((dest_IP, dest_port))`. -/
def addEntry (d : Dict) (k : String) (v : String × String) : Dict :=
  match d with
  | [] => [(k, [v])]
  | (k2, vs) :: t => if k2 = k then (k2, vs ++ [v]) :: t else (k2, vs) :: addEntry t k v

/-- Lookup in the dictionary (the entry list, `[]` when absent). -/
def lookupList : Dict → String → List (String × String)
  | [], _ => []
  | (k2, vs) :: t, k => if k2 = k then vs else lookupList t k

/-- `blacklist_dict.keys()` in insertion order. -/
def dictKeys (d : Dict) : List String := d.map Prod.fst

/-- One iteration of the row-validation loop, lines 144-150 of the source:
rows that do not have exactly 3 fields are skipped, others are appended to
the bucket keyed by their third field (the category). -/
def dictStep (acc : Dict) (r : List String) : Dict :=
  match r with
  | [ip, port, desc] => addEntry acc desc (ip, port)
  | _ => acc

/-- The dictionary built from the (already tokenised) data rows. -/
def dictOf (parsed : List (List String)) : Dict :=
  parsed.foldl dictStep []

/-- Error log produced by the loop: one record per skipped row.  The Python
message interpolates `str(row)`; the model keeps the fixed prefix. -/
def skipLogs (parsed : List (List String)) : List String :=
  (parsed.filter (fun r => r.length ≠ 3)).map (fun _ => "Skipping invalid data row")

/-- Specification view of a bucket: the `(ip, port)` pairs of the valid
3-field rows whose category is `k`, in input order (the first-appearance
order of the rows). -/
def entriesFor (k : String) (parsed : List (List String)) : List (String × String) :=
  parsed.filterMap (fun r =>
    match r with
    | [ip, port, desc] => if desc = k then some (ip, port) else none
    | _ => none)

/-! ## The four parsing/rendering components -/

/-- Log message of line 128. -/
def hdrFormatErr : String := "CSV File Header does not conform to expected formatting"

/-- `parse_header` (lines 51-68): requires at least 3 header lines; the
report name is line index 1 and the timestamp line index 2, each stripped of
`#` and spaces; a timestamp that fails `strptime` yields `None` with a
logged error.  Returns ((name, datetime), error logs). -/
def parse_header (header : List String) : (Option String × Option PyDatetime) × List String :=
  if header.length < 3 then
    ((none, none), ["Blacklist header too short"])
  else
    let report_name := pyStrip ' ' (pyStrip '#' (header.getD 1 ""))
    let report_timestamp := pyStrip ' ' (pyStrip '#' (header.getD 2 ""))
    match strptimeLastUpdated report_timestamp with
    | some t => ((some report_name, some t), [])
    | none => ((some report_name, none), ["Timestamp in blacklist not formatted as expected"])

/-- `re.match(r"# Number of entries: ([0-9]+)", trailer)`: anchored at the
start only; the capture is the maximal digit run after the literal prefix. -/
def reMatchTrailer (s : String) : Option Nat :=
  match expectLit "# Number of entries: ".data s.data with
  | none => none
  | some rest =>
    let ds := rest.takeWhile Char.isDigit
    if ds.isEmpty then none else some (ds.foldl (fun acc c => acc * 10 + digitVal c) 0)

/-- `parse_trailer` (lines 71-81): the declared count, or the sentinel `-1`
with a logged error when the pattern does not match.  Never raises. -/
def parse_trailer (trailer : String) : Int × List String :=
  match reMatchTrailer trailer with
  | some n => ((n : Int), [])
  | none => (-1, ["Trailer in blacklist not formatted as expected"])

/-- First write of `generate_report` (line 98). -/
def line1 (name : Option String) : String :=
  pyStrName name ++ " Blacklist Report\n"

/-- Second write of `generate_report` (lines 99-100). -/
def line2 (num : Int) (t : PyDatetime) : String :=
  "(" ++ toString num ++ " IP\x27s found at " ++ strftimeReport t ++ "):\n"

/-- Section header write (line 105). -/
def sectionHeader (c : String) : String :=
  "\n=== " ++ c ++ " ===\n"

/-- Entry write (line 107): `':'.join(entry) + "\n"`. -/
def entryLine (e : String × String) : String :=
  e.1 ++ ":" ++ e.2 ++ "\n"

/-- Boolean strict lexicographic comparison on code-point sequences; agrees
with the `String` order (see `lexLtB_iff_lex` below) but is kernel
computable. -/
def lexLtB : List Char → List Char → Bool
  | [], [] => false
  | [], _ :: _ => true
  | _ :: _, [] => false
  | a :: as, b :: bs => if a < b then true else if b < a then false else lexLtB as bs

/-- Python string comparison `a <= b` (code-point lexicographic). -/
def pyLeB (a b : String) : Bool := !(lexLtB b.data a.data)

def pyStrLe (a b : String) : Prop := pyLeB a b = true

instance : DecidableRel pyStrLe := fun a b => instDecidableEqBool (pyLeB a b) true

/-- The sequence of section writes: categories in `sorted(...)` order, then
each bucket in stored order.  `sorted` on unique string keys is the unique
ordering permutation, realised here by insertion sort on Python string order
(code-point lexicographic). -/
def pySorted (l : List String) : List String :=
  l.insertionSort pyStrLe

def blocksOf (dict : Dict) : List String :=
  (pySorted (dictKeys dict)).flatMap
    (fun c => sectionHeader c :: (lookupList dict c).map entryLine)

/-- `generate_report` (lines 84-109).  The name line is always written
first; computing the second line calls `report_datetime.strftime`, which
raises `AttributeError` when the datetime is `None`, so in that case only
the first line has been written when the exception escapes. -/
def generate_report (name : Option String) (num : Int) (dt : Option PyDatetime)
    (dict : Dict) : List String × Option PyExn :=
  match dt with
  | none => ([line1 name], some PyExn.attributeError)
  | some t => (line1 name :: line2 num t :: blocksOf dict, none)

/-! ## parse_blacklist (lines 113-156) -/

/-- The marker line constant `field_list` of line 125. -/
def field_list : String := "# DstIP,DstPort\n"

/-- The header region handed to `parse_header`:
`data[:header_end].splitlines()`. -/
def hdrOf (data : String) : (Option String × Option PyDatetime) × List String :=
  parse_header (pySplitlines (pySliceTo data (pyFind data field_list)))

/-- The row region: `data[header_end+len(field_list):].splitlines()`. -/
def rowsOf (data : String) : List String :=
  pySplitlines (pySliceFrom data (pyFind data field_list + (field_list.length : Int)))

/-- Lines 139-155 once the trailer has been popped: parse the trailer, run
`csv.reader` over the remaining rows (the row loop, which logs and skips
each yielded row without exactly 3 fields and buckets the others), build
the dictionary and render.  A `csv.Error` (NUL in the input) aborts the
loop after the rows already yielded, is logged by the `except csv.Error`
handler, and the report is still generated from the partial dictionary. -/
def finishBody (h : (Option String × Option PyDatetime) × List String)
    (t : Int × List String) (body : List String) : RunResult :=
  { writes := (generate_report h.1.1 t.1 h.1.2 (dictOf (csvReadRows body none).1)).1
    logs := h.2 ++ t.2 ++ skipLogs (csvReadRows body none).1 ++
      (if (csvReadRows body none).2 then ["CSV parsing failed for blacklist"] else [])
    exn := (generate_report h.1.1 t.1 h.1.2 (dictOf (csvReadRows body none).1)).2 }

/-- Line 139: `num_entries = parse_trailer(rows.pop())`.  `pop` on an empty
list raises `IndexError` (escaping `parse_blacklist`); otherwise it removes
and returns the last row. -/
def finishRows (h : (Option String × Option PyDatetime) × List String)
    (rows : List String) : RunResult :=
  match rows.getLast? with
  | none => { writes := [], logs := h.2, exn := some PyExn.indexError }
  | some lastLine => finishBody h (parse_trailer lastLine) rows.dropLast

/-- The body of `parse_blacklist` after the marker check. -/
def parseAfterMarker (data : String) : RunResult :=
  finishRows (hdrOf data) (rowsOf data)

/-- `parse_blacklist` (lines 113-156).  `header_end = data.find(field_list)`
is `-1` when the marker is absent; the guard is `if not header_end:`, which
is true exactly when `header_end == 0`, i.e. when the marker is the very
first line. -/
def parse_blacklist (data : String) : RunResult :=
  if pyFind data field_list = 0 then
    { writes := [], logs := [hdrFormatErr], exn := none }
  else parseAfterMarker data

/-! ## get_blacklist (lines 31-48) and the orchestration in main (160-199) -/

/-- The outcome of the HTTP GET, the only external input of
`get_blacklist`. -/
inductive FetchOutcome where
  | success (body : String)
  | transportError

/-- `get_blacklist`: the body when the request succeeds with a non-empty
text, `None` on an empty body or a `RequestException`. -/
def get_blacklist : FetchOutcome → Option String
  | FetchOutcome.success body => if 0 < body.length then some body else none
  | FetchOutcome.transportError => none

/-- `main` passes `get_blacklist`\x27s result straight to
`parse_blacklist(data, report)` with no `None` check; `None.find(...)`
raises `AttributeError` before anything is parsed or written. -/
def parse_blacklist_opt : Option String → RunResult
  | none => { writes := [], logs := [], exn := some PyExn.attributeError }
  | some data => parse_blacklist data

/-- The `except Exception` catch-all of lines 194-195: an escaping exception
is logged (with its traceback) and the run ends cleanly. -/
def absorb (r : RunResult) : RunResult :=
  match r.exn with
  | some _ => { writes := r.writes, logs := r.logs ++ ["Unhandled exception logged with traceback"], exn := none }
  | none => r

/-- The fetch-parse-report pipeline of `main` (lines 191-195), as a function
of the already-fetched data. -/
def runMain (fetched : Option String) : RunResult :=
  absorb (parse_blacklist_opt fetched)

/-! ## Concrete input documents used by the claim theorems -/

/-- The end-to-end example input of spec section 8, verbatim. -/
def specExampleDoc : String :=
  "# Example Blacklist\n# Last updated: 2016-01-01 12:00:00 (UTC)\n# DstIP,DstPort\n1.2.3.4,443,Foo C&C\n5.6.7.8,8080,Bar C&C\n1.2.3.5,443,Foo C&C\n# Number of entries: 3\n"

/-- The spec-section-8 example with one extra leading comment line, so that
the name and the timestamp sit on header lines 2 and 3 as section 4.1
requires. -/
def c2docFixed : String :=
  "#\n# Example Blacklist\n# Last updated: 2016-01-01 12:00:00 (UTC)\n# DstIP,DstPort\n1.2.3.4,443,Foo C&C\n5.6.7.8,8080,Bar C&C\n1.2.3.5,443,Foo C&C\n# Number of entries: 3\n"

/-- The report text of spec section 8. -/
def c2expected : String :=
  "Example Blacklist Blacklist Report\n(3 IP\x27s found at Jan 01 12:00:00 2016):\n\n=== Bar C&C ===\n5.6.7.8:8080\n\n=== Foo C&C ===\n1.2.3.4:443\n1.2.3.5:443\n"

/-- A document that does not contain the marker line at all, with a header
block whose lines 2 and 3 parse as name and timestamp, one data row, and a
trailer. -/
def c1doc : String :=
  "#junk\n# MyName\n# Last updated: 2016-01-01 12:00:00 (UTC)\n1.2.3.4,443,Cat\n# Number of entries: 1\n"

/-- A document whose header region before the marker has fewer than 3
lines. -/
def c6doc : String :=
  "# OnlyOne\n# DstIP,DstPort\n1.1.1.1,80,X\n# Number of entries: 1\n"

/-- A document that begins with the marker line itself. -/
def c8doc : String :=
  "# DstIP,DstPort\n1.2.3.4,443,Foo\n# Number of entries: 1\n"

/-- A document with the marker at a positive offset and nothing after it. -/
def c9doc : String := "#\n# DstIP,DstPort\n"

/-- A document with no trailer line: the final line is a valid 3-field data
row with a category (`Bar`) not used by any earlier row. -/
def c10doc : String :=
  "#\n# W10\n# Last updated: 2016-01-01 12:00:00 (UTC)\n# DstIP,DstPort\n1.2.3.4,443,Foo\n5.6.7.8,80,Bar\n"

/-- Witness document for C3: categories appear in the input in non-sorted
order (`Zeta`, `Alpha`, `Zeta`). -/
def c3doc : String :=
  "#\n# W3\n# Last updated: 2016-01-01 12:00:00 (UTC)\n# DstIP,DstPort\n9.9.9.9,443,Zeta\n1.1.1.1,80,Alpha\n2.2.2.2,81,Zeta\n# Number of entries: 3\n"

/-- Witness document for C4: the two data rows have 2 and 4 fields. -/
def c4doc : String :=
  "#\n# W4\n# Last updated: 2016-01-01 12:00:00 (UTC)\n# DstIP,DstPort\n1.2.3.4,443\n1.2.3.4,443,Foo,extra\n# Number of entries: 2\n"

/-- Witness document for C5: the trailer line does not match the expected
pattern. -/
def c5doc : String :=
  "#\n# W5\n# Last updated: 2016-01-01 12:00:00 (UTC)\n# DstIP,DstPort\n1.2.3.4,443,Cat\n# Entries: 1\n"

/-! ## Sanity checks of the embedding on small inputs -/

example : pySplitlines "a\nb\n" = ["a", "b"] := by decide
example : pySplitlines "" = [] := by decide
example : pyFind "xx# DstIP,DstPort\n" field_list = 2 := by decide
example : pyFind "nothing here" field_list = -1 := by decide
example : csvReadRows ["1.2.3.4,443,Foo C&C"] none = ([["1.2.3.4", "443", "Foo C&C"]], false) := by
  decide
example : csvReadRows ["\x22a,b\x22,c"] none = ([["a,b", "c"]], false) := by decide
example : csvReadRows ["\x22a", "b,c\x22,d,e"] none = ([["ab,c", "d", "e"]], false) := by decide
example : csvReadRows ["a,b", "", "c"] none = ([["a", "b"], [], ["c"]], false) := by decide
example : csvReadRows ["x,y", "a\x00b", "c"] none = ([["x", "y"]], true) := by decide
example : strptimeLastUpdated "Last updated: 2016-01-01 12:00:00 (UTC)" =
    some ⟨2016, 1, 1, 12, 0, 0⟩ := by decide
example : reMatchTrailer "# Number of entries: 3" = some 3 := by decide
example : reMatchTrailer "# Entries: 3" = none := by decide

/-! ## Basic lemmas about the pipeline -/

/-- When the marker is a prefix of the document, `data.find` returns 0. -/
theorem pyFind_eq_zero_of_prefix (data : String)
    (h : field_list.data.isPrefixOf data.data = true) :
    pyFind data field_list = 0 := by
  unfold pyFind
  unfold findSubAux
  rw [h]
  rfl

/-- Claim C8: for every document whose very first characters are the marker
line `# DstIP,DstPort\n`, `parse_blacklist` takes the `if not header_end:`
branch (since `find` returns 0, which is falsy): it logs the format error
and returns without writing any report content, even though the marker line
is present. -/
theorem claim_C8_marker_at_offset_zero (data : String)
    (h : field_list.data.isPrefixOf data.data = true) :
    parse_blacklist data = { writes := [], logs := [hdrFormatErr], exn := none } := by
  have h0 : pyFind data field_list = 0 := pyFind_eq_zero_of_prefix data h
  simp [parse_blacklist, h0]

/-- Witness for C8 at a concrete document starting with the marker line. -/
theorem claim_C8_witness :
    field_list.data.isPrefixOf c8doc.data = true ∧
    parse_blacklist c8doc = { writes := [], logs := [hdrFormatErr], exn := none } :=
  ⟨by decide, claim_C8_marker_at_offset_zero c8doc (by decide)⟩

/-- Claim C1 (code behaviour at the failing input): `c1doc` does not contain
the marker line (`find` returns -1, which is truthy, so `if not header_end:`
does not fire).  The code then treats `data[:-1]` as the header and
`data[15:]` as the rows, writes a complete report and never logs the
missing-marker error — contradicting the claim that a missing marker aborts
the run with an error and no report content. -/
theorem claim_C1_code_behavior :
    pyFind c1doc field_list = -1 ∧
    parse_blacklist c1doc =
      { writes := ["MyName Blacklist Report\n", "(1 IP\x27s found at Jan 01 12:00:00 2016):\n",
                   "\n=== Cat ===\n", "1.2.3.4:443\n"],
        logs := ["Skipping invalid data row"],
        exn := none } ∧
    hdrFormatErr ∉ (parse_blacklist c1doc).logs ∧
    (parse_blacklist c1doc).writes ≠ [] := by
  refine ⟨by decide, by decide, by decide, by decide⟩

/-- Claim C2 (counterexample): on the verbatim spec-section-8 input the
header region before the marker has only 2 lines, so `parse_header` returns
no metadata; `generate_report` writes `"None Blacklist Report\n"` and then
raises `AttributeError` on the `None` timestamp.  The output is not the
section-8 report text. -/
theorem claim_C2_counterexample :
    parse_blacklist specExampleDoc =
      { writes := ["None Blacklist Report\n"],
        logs := ["Blacklist header too short"],
        exn := some PyExn.attributeError } ∧
    String.join (parse_blacklist specExampleDoc).writes ≠ c2expected := by
  refine ⟨by decide, by decide⟩

/-- Claim C2 (amended): with one extra leading comment line — so that the
name and timestamp are header lines 2 and 3 as spec section 4.1 requires —
`parse_blacklist` writes exactly the section-8 report text, with no errors
and no exception. -/
theorem claim_C2_amended :
    String.join (parse_blacklist c2docFixed).writes = c2expected ∧
    (parse_blacklist c2docFixed).logs = [] ∧
    (parse_blacklist c2docFixed).exn = none := by
  refine ⟨by decide, by decide, by decide⟩

/-- Claim C6 (code behaviour at the failing input): with fewer than 3 header
lines `parse_header` does produce no metadata and logs a non-fatal error, but
the caller does not survive with sentinel metadata: `generate_report` writes
the name line rendered as `None` and then raises `AttributeError` on
`None.strftime`, which escapes `parse_blacklist` and is absorbed only by the
top-level catch-all, so no report is produced. -/
theorem claim_C6_code_behavior :
    (pySplitlines (pySliceTo c6doc (pyFind c6doc field_list))).length < 3 ∧
    hdrOf c6doc = ((none, none), ["Blacklist header too short"]) ∧
    parse_blacklist c6doc =
      { writes := ["None Blacklist Report\n"],
        logs := ["Blacklist header too short"],
        exn := some PyExn.attributeError } ∧
    runMain (some c6doc) =
      { writes := ["None Blacklist Report\n"],
        logs := ["Blacklist header too short", "Unhandled exception logged with traceback"],
        exn := none } := by
  refine ⟨by decide, by decide, by decide, by decide⟩

/-- Claim C7 (counterexample): when the fetch yields no data, `main` does
not abort before the parsing stage — it passes `None` straight to
`parse_blacklist`, whose `data.find(...)` raises `AttributeError`; the run
ends with the catch-all logging the exception.  An abort before parsing
would produce no exception from the parsing stage. -/
theorem claim_C7_counterexample :
    (parse_blacklist_opt (get_blacklist FetchOutcome.transportError)).exn
      = some PyExn.attributeError ∧
    runMain (get_blacklist FetchOutcome.transportError) =
      { writes := [], logs := ["Unhandled exception logged with traceback"], exn := none } := by
  refine ⟨by decide, by decide⟩

/-- Claim C7 (amended): whenever the fetch yields no data (transport error
or empty body), the parsing stage is still invoked with the `None` sentinel
and immediately raises `AttributeError` — before writing anything — and the
orchestrator absorbs the exception at the top level; no report content is
written. -/
theorem claim_C7_amended (f : FetchOutcome) (h : get_blacklist f = none) :
    parse_blacklist_opt (get_blacklist f) =
      { writes := [], logs := [], exn := some PyExn.attributeError } ∧
    runMain (get_blacklist f) =
      { writes := [], logs := ["Unhandled exception logged with traceback"], exn := none } := by
  rw [h]
  exact ⟨rfl, rfl⟩

/-- Witness for C7 at the concrete empty-body fetch outcome. -/
theorem claim_C7_witness :
    get_blacklist (FetchOutcome.success "") = none ∧
    (parse_blacklist_opt (get_blacklist (FetchOutcome.success "")) =
      { writes := [], logs := [], exn := some PyExn.attributeError } ∧
    runMain (get_blacklist (FetchOutcome.success "")) =
      { writes := [], logs := ["Unhandled exception logged with traceback"], exn := none }) :=
  ⟨by decide, claim_C7_amended (FetchOutcome.success "") (by decide)⟩

/-! ## Decomposition lemmas for parse_blacklist -/

/-- When the marker check does not fire and the row region has at least one
line, `parse_blacklist` pops the last row, parses it as the trailer, and
processes the remaining rows. -/
theorem parse_blacklist_concat (data : String) (rows0 : List String) (lastLine : String)
    (h0 : pyFind data field_list ≠ 0)
    (h1 : rowsOf data = rows0 ++ [lastLine]) :
    parse_blacklist data = finishBody (hdrOf data) (parse_trailer lastLine) rows0 := by
  unfold parse_blacklist parseAfterMarker
  rw [if_neg h0, h1]
  unfold finishRows
  rw [List.getLast?_concat, List.dropLast_concat]

/-- When the marker check does not fire and the row region is empty,
`rows.pop()` raises `IndexError` before anything is written. -/
theorem parse_blacklist_noRows (data : String)
    (h0 : pyFind data field_list ≠ 0)
    (h1 : rowsOf data = []) :
    parse_blacklist data =
      { writes := [], logs := (hdrOf data).2, exn := some PyExn.indexError } := by
  unfold parse_blacklist parseAfterMarker
  rw [if_neg h0, h1]
  rfl

/-- Claim C9: if the marker occurs at a positive offset and nothing follows
`# DstIP,DstPort\n`, the row list is empty and `rows.pop()` raises an
`IndexError` that escapes `parse_blacklist`; the orchestrator catch-all
absorbs it, and no report content is written. -/
theorem claim_C9_empty_after_marker (data : String)
    (h0 : 0 < pyFind data field_list)
    (h1 : pySliceFrom data (pyFind data field_list + (field_list.length : Int)) = "") :
    (parse_blacklist data).writes = [] ∧
    (parse_blacklist data).exn = some PyExn.indexError ∧
    (runMain (some data)).writes = [] ∧
    (runMain (some data)).exn = none := by
  have h0' : pyFind data field_list ≠ 0 := by omega
  have hr : rowsOf data = [] := by
    unfold rowsOf
    rw [h1]
    rfl
  have hp := parse_blacklist_noRows data h0' hr
  refine ⟨?_, ?_, ?_, ?_⟩ <;> simp [hp, runMain, parse_blacklist_opt, absorb]

/-- Witness for C9 at a concrete document whose marker is at offset 2 with
nothing after it. -/
theorem claim_C9_witness :
    0 < pyFind c9doc field_list ∧
    pySliceFrom c9doc (pyFind c9doc field_list + (field_list.length : Int)) = "" ∧
    ((parse_blacklist c9doc).writes = [] ∧
     (parse_blacklist c9doc).exn = some PyExn.indexError ∧
     (runMain (some c9doc)).writes = [] ∧
     (runMain (some c9doc)).exn = none) :=
  ⟨by decide, by decide, claim_C9_empty_after_marker c9doc (by decide) (by decide)⟩

/-! ## Lemmas about the grouping dictionary -/

/-- A row without exactly 3 fields leaves the dictionary unchanged. -/
theorem dictStep_of_len_ne (r : List String) (h : r.length ≠ 3) (acc : Dict) :
    dictStep acc r = acc := by
  rcases r with _ | ⟨a, _ | ⟨b, _ | ⟨c, _ | ⟨e, t⟩⟩⟩⟩
  · rfl
  · rfl
  · rfl
  · exact absurd rfl h
  · rfl

/-- Rows without exactly 3 fields are invisible to the grouping fold. -/
theorem foldl_dictStep_filter (parsed : List (List String)) : ∀ acc : Dict,
    parsed.foldl dictStep acc =
      (parsed.filter (fun r => r.length == 3)).foldl dictStep acc := by
  induction parsed with
  | nil => intro acc; rfl
  | cons r rest ih =>
    intro acc
    by_cases h : r.length = 3
    · simp only [List.foldl_cons, List.filter_cons, h, beq_self_eq_true, if_pos]
      exact ih (dictStep acc r)
    · have hb : (r.length == 3) = false := by simpa using h
      simp only [List.foldl_cons, List.filter_cons, hb, Bool.false_eq_true, if_neg,
        not_false_eq_true, dictStep_of_len_ne r h]
      exact ih acc

/-- `dictOf` ignores every row that does not have exactly 3 fields. -/
theorem dictOf_filter (parsed : List (List String)) :
    dictOf parsed = dictOf (parsed.filter (fun r => r.length == 3)) :=
  foldl_dictStep_filter parsed []

theorem lookupList_addEntry_self (d : Dict) (k : String) (v : String × String) :
    lookupList (addEntry d k v) k = lookupList d k ++ [v] := by
  induction d with
  | nil => simp [addEntry, lookupList]
  | cons p t ih =>
    obtain ⟨k2, vs⟩ := p
    by_cases h : k2 = k
    · subst h
      simp [addEntry, lookupList]
    · simp [addEntry, lookupList, h, ih]

theorem lookupList_addEntry_ne (d : Dict) (k k2 : String) (v : String × String)
    (h : k2 ≠ k) : lookupList (addEntry d k v) k2 = lookupList d k2 := by
  induction d with
  | nil => simp [addEntry, lookupList, Ne.symm h]
  | cons p t ih =>
    obtain ⟨k3, vs⟩ := p
    by_cases h3 : k3 = k
    · subst h3
      simp [addEntry, lookupList, Ne.symm h]
    · by_cases h2 : k3 = k2
      · subst h2
        simp [addEntry, lookupList, h3]
      · simp [addEntry, lookupList, h3, h2, ih]

/-- `entriesFor` on a cons. -/
theorem entriesFor_cons (k : String) (r : List String) (rest : List (List String)) :
    entriesFor k (r :: rest) =
      (match r with
       | [ip, port, desc] => if desc = k then [(ip, port)] else []
       | _ => []) ++ entriesFor k rest := by
  rcases r with _ | ⟨a, _ | ⟨b, _ | ⟨c, _ | ⟨e, t⟩⟩⟩⟩
  · simp [entriesFor, List.filterMap_cons]
  · simp [entriesFor, List.filterMap_cons]
  · simp [entriesFor, List.filterMap_cons]
  · by_cases h : c = k
    · simp [entriesFor, List.filterMap_cons, h]
    · simp [entriesFor, List.filterMap_cons, h]
  · simp [entriesFor, List.filterMap_cons]

/-- The fold builds exactly the per-category entry lists, in arrival
order. -/
theorem foldl_dictStep_lookup (parsed : List (List String)) : ∀ (acc : Dict) (k : String),
    lookupList (parsed.foldl dictStep acc) k = lookupList acc k ++ entriesFor k parsed := by
  induction parsed with
  | nil => intro acc k; simp [entriesFor]
  | cons r rest ih =>
    intro acc k
    rw [List.foldl_cons, ih (dictStep acc r) k, entriesFor_cons]
    rcases r with _ | ⟨a, _ | ⟨b, _ | ⟨c, _ | ⟨e, t⟩⟩⟩⟩
    · simp [dictStep]
    · simp [dictStep]
    · simp [dictStep]
    · by_cases h : c = k
      · subst h
        simp [dictStep, lookupList_addEntry_self]
      · simp [dictStep, lookupList_addEntry_ne _ _ _ _ (Ne.symm h), h]
    · simp [dictStep]

/-- Each bucket of the built dictionary is the ordered projection of the
valid rows with that category. -/
theorem dictOf_lookup (parsed : List (List String)) (k : String) :
    lookupList (dictOf parsed) k = entriesFor k parsed := by
  have h := foldl_dictStep_lookup parsed [] k
  simpa [dictOf, lookupList] using h

theorem dictKeys_addEntry (d : Dict) (k : String) (v : String × String) :
    dictKeys (addEntry d k v) =
      if k ∈ dictKeys d then dictKeys d else dictKeys d ++ [k] := by
  induction d with
  | nil => simp [addEntry, dictKeys]
  | cons p t ih =>
    obtain ⟨k2, vs⟩ := p
    by_cases h : k2 = k
    · subst h
      simp [addEntry, dictKeys]
    · have ha : addEntry ((k2, vs) :: t) k v = (k2, vs) :: addEntry t k v := by
        simp [addEntry, h]
      have hcons : dictKeys ((k2, vs) :: addEntry t k v) = k2 :: dictKeys (addEntry t k v) := rfl
      have hmc : k ∈ dictKeys ((k2, vs) :: t) ↔ k ∈ dictKeys t := by
        simp only [dictKeys, List.map_cons, List.mem_cons]
        constructor
        · rintro (h1 | h1)
          · exact absurd h1.symm h
          · exact h1
        · exact Or.inr
      rw [ha, hcons, ih]
      by_cases hm : k ∈ dictKeys t
      · rw [if_pos hm, if_pos (hmc.mpr hm)]
        rfl
      · rw [if_neg hm, if_neg (fun hh => hm (hmc.mp hh))]
        rfl

/-- The fold preserves distinctness of the category keys. -/
theorem foldl_dictStep_nodup (parsed : List (List String)) : ∀ acc : Dict,
    (dictKeys acc).Nodup → (dictKeys (parsed.foldl dictStep acc)).Nodup := by
  induction parsed with
  | nil => intro acc h; exact h
  | cons r rest ih =>
    intro acc h
    rw [List.foldl_cons]
    apply ih
    rcases r with _ | ⟨a, _ | ⟨b, _ | ⟨c, _ | ⟨e, t⟩⟩⟩⟩
    · exact h
    · exact h
    · exact h
    · rw [dictStep, dictKeys_addEntry]
      by_cases hm : c ∈ dictKeys acc
      · simp [hm, h]
      · simp [hm, h, List.nodup_append]
    · exact h

theorem dictOf_keys_nodup (parsed : List (List String)) :
    (dictKeys (dictOf parsed)).Nodup :=
  foldl_dictStep_nodup parsed [] (by simp [dictKeys])

/-- Claim C5: a trailer line that does not match
`# Number of entries: <digits>` makes `parse_trailer` return the sentinel
`-1` (it never raises), and — provided the header metadata parsed — the
report is still generated, with `-1` rendered in the heading line and the
category data rendered as usual. -/
theorem claim_C5_trailer_sentinel (data : String) (rows0 : List String) (lastLine : String)
    (d : PyDatetime)
    (h0 : pyFind data field_list ≠ 0)
    (h1 : rowsOf data = rows0 ++ [lastLine])
    (h2 : (hdrOf data).1.2 = some d)
    (h3 : reMatchTrailer lastLine = none) :
    parse_trailer lastLine = (-1, ["Trailer in blacklist not formatted as expected"]) ∧
    (parse_blacklist data).writes =
      line1 (hdrOf data).1.1 :: line2 (-1) d ::
        blocksOf (dictOf (csvReadRows rows0 none).1) ∧
    (parse_blacklist data).exn = none := by
  have ht : parse_trailer lastLine = (-1, ["Trailer in blacklist not formatted as expected"]) := by
    unfold parse_trailer
    rw [h3]
  have hp := parse_blacklist_concat data rows0 lastLine h0 h1
  rw [ht] at hp
  refine ⟨ht, ?_, ?_⟩ <;>
    simp [hp, finishBody, generate_report, h2]

/-- Witness for C5: a document whose final line `# Entries: 1` does not
match the trailer pattern; `-1` is rendered and the single `Cat` block still
appears. -/
theorem claim_C5_witness :
    pyFind c5doc field_list ≠ 0 ∧
    rowsOf c5doc = ["1.2.3.4,443,Cat"] ++ ["# Entries: 1"] ∧
    (hdrOf c5doc).1.2 = some ⟨2016, 1, 1, 12, 0, 0⟩ ∧
    reMatchTrailer "# Entries: 1" = none ∧
    (parse_trailer "# Entries: 1" = (-1, ["Trailer in blacklist not formatted as expected"]) ∧
     (parse_blacklist c5doc).writes =
       line1 (hdrOf c5doc).1.1 :: line2 (-1) ⟨2016, 1, 1, 12, 0, 0⟩ ::
         blocksOf (dictOf (csvReadRows ["1.2.3.4,443,Cat"] none).1) ∧
     (parse_blacklist c5doc).exn = none) :=
  ⟨by decide, by decide, by decide, by decide,
   claim_C5_trailer_sentinel c5doc ["1.2.3.4,443,Cat"] "# Entries: 1" ⟨2016, 1, 1, 12, 0, 0⟩
     (by decide) (by decide) (by decide) (by decide)⟩

/-- Claim C4: a CSV data row — as yielded by `csv.reader`, so after any
quote-continuation joining — that does not decompose into exactly 3 fields
is excluded from every category bucket while later rows are still processed
(the fold over the rows is the fold over the 3-field rows only); and when
every data row of a document has a wrong field count, the generated report
consists of the two metadata heading lines and zero category blocks. -/
theorem claim_C4_wrong_field_count (data : String) (rows0 : List String) (lastLine : String)
    (d : PyDatetime)
    (h0 : pyFind data field_list ≠ 0)
    (h1 : rowsOf data = rows0 ++ [lastLine])
    (h2 : (hdrOf data).1.2 = some d)
    (hall : ∀ r ∈ (csvReadRows rows0 none).1, r.length ≠ 3) :
    (∀ parsed : List (List String),
      dictOf parsed = dictOf (parsed.filter (fun r => r.length == 3))) ∧
    (parse_blacklist data).writes =
      [line1 (hdrOf data).1.1, line2 (parse_trailer lastLine).1 d] := by
  refine ⟨dictOf_filter, ?_⟩
  have hp := parse_blacklist_concat data rows0 lastLine h0 h1
  have hdict : dictOf (csvReadRows rows0 none).1 = [] := by
    rw [dictOf_filter]
    have hnil : ((csvReadRows rows0 none).1).filter (fun r => r.length == 3) = [] := by
      rw [List.filter_eq_nil_iff]
      intro r hr
      simpa using hall r hr
    rw [hnil]
    rfl
  simp [hp, finishBody, generate_report, h2, hdict, blocksOf, dictKeys, pySorted]

/-- Witness for C4: both data rows are malformed (2 fields and 4 fields);
the report is the two heading lines only. -/
theorem claim_C4_witness :
    pyFind c4doc field_list ≠ 0 ∧
    rowsOf c4doc = ["1.2.3.4,443", "1.2.3.4,443,Foo,extra"] ++ ["# Number of entries: 2"] ∧
    (hdrOf c4doc).1.2 = some ⟨2016, 1, 1, 12, 0, 0⟩ ∧
    (∀ r ∈ (csvReadRows ["1.2.3.4,443", "1.2.3.4,443,Foo,extra"] none).1, r.length ≠ 3) ∧
    ((∀ parsed : List (List String),
       dictOf parsed = dictOf (parsed.filter (fun r => r.length == 3))) ∧
     (parse_blacklist c4doc).writes =
       [line1 (hdrOf c4doc).1.1,
        line2 (parse_trailer "# Number of entries: 2").1 ⟨2016, 1, 1, 12, 0, 0⟩]) :=
  ⟨by decide, by decide, by decide, by decide,
   claim_C4_wrong_field_count c4doc ["1.2.3.4,443", "1.2.3.4,443,Foo,extra"]
     "# Number of entries: 2" ⟨2016, 1, 1, 12, 0, 0⟩
     (by decide) (by decide) (by decide) (by decide)⟩

/-! ## The sort used by the renderer agrees with string order -/

/-- `lexLtB` is the lexicographic extension of the character order. -/
theorem lexLtB_iff_lex (as : List Char) : ∀ bs : List Char,
    lexLtB as bs = true ↔ List.Lex (· < ·) as bs := by
  induction as with
  | nil =>
    intro bs
    cases bs with
    | nil =>
      constructor
      · intro h
        simp [lexLtB] at h
      · intro h
        cases h
    | cons b bs =>
      constructor
      · intro _
        exact List.Lex.nil
      · intro _
        rfl
  | cons a as ih =>
    intro bs
    cases bs with
    | nil =>
      constructor
      · intro h
        simp [lexLtB] at h
      · intro h
        cases h
    | cons b bs =>
      by_cases hab : a < b
      · constructor
        · intro _
          exact List.Lex.rel hab
        · intro _
          simp [lexLtB, hab]
      · by_cases hba : b < a
        · constructor
          · intro h
            simp [lexLtB, hab, hba] at h
          · intro h
            cases h with
            | rel h2 => exact absurd h2 hab
            | cons h2 => exact absurd hba (lt_irrefl a)
        · have heq : a = b := le_antisymm (not_lt.mp hba) (not_lt.mp hab)
          subst heq
          constructor
          · intro h
            have h2 : lexLtB as bs = true := by
              simpa [lexLtB, lt_irrefl] using h
            exact List.Lex.cons ((ih bs).mp h2)
          · intro h
            cases h with
            | rel h2 => exact absurd h2 (lt_irrefl a)
            | cons h2 =>
              simpa [lexLtB, lt_irrefl] using (ih bs).mpr h2

/-- The Boolean strict comparison agrees with the `String` strict order. -/
theorem lexLtB_iff_lt (a b : String) : lexLtB a.data b.data = true ↔ a < b := by
  rw [String.lt_iff_toList_lt]
  exact lexLtB_iff_lex a.data b.data

/-- The Boolean comparison used by the model of `sorted` agrees with the
`String` order. -/
theorem pyLeB_iff (a b : String) : pyLeB a b = true ↔ a ≤ b := by
  unfold pyLeB
  rw [Bool.not_eq_true']
  rw [Bool.eq_false_iff, Ne, lexLtB_iff_lt]
  exact not_lt

instance : IsTotal String pyStrLe :=
  ⟨fun a b => by
    unfold pyStrLe
    rw [pyLeB_iff, pyLeB_iff]
    exact le_total a b⟩

instance : IsTrans String pyStrLe :=
  ⟨fun a b c hab hbc => by
    unfold pyStrLe at hab hbc ⊢
    rw [pyLeB_iff] at hab hbc ⊢
    exact le_trans hab hbc⟩

theorem pySorted_sorted (l : List String) : List.Sorted (· ≤ ·) (pySorted l) :=
  (List.sorted_insertionSort pyStrLe l).imp (fun h => (pyLeB_iff _ _).mp h)

theorem pySorted_perm (l : List String) : List.Perm (pySorted l) l :=
  List.perm_insertionSort pyStrLe l

/-- On a duplicate-free list, the rendering order of `sorted(...)` is
strictly increasing in the code-point lexicographic string order. -/
theorem pySorted_pairwise_lt (l : List String) (h : l.Nodup) :
    List.Pairwise (· < ·) (pySorted l) :=
  List.Sorted.lt_of_le (pySorted_sorted l) ((pySorted_perm l).nodup_iff.mpr h)

/-- Claim C3: for every document that parses to a report (marker check does
not fire, at least one row after the marker, and a parsed timestamp so the
rendering completes), the report is the two heading lines followed by the
category blocks in `sorted` order — a strictly increasing sequence of
category names in code-point lexicographic order, whatever the input row
order was — and each block lists its entries in the first-appearance order
of their rows (the records yielded by `csv.reader`) in the input. -/
theorem claim_C3_ordering (data : String) (rows0 : List String) (lastLine : String)
    (d : PyDatetime)
    (h0 : pyFind data field_list ≠ 0)
    (h1 : rowsOf data = rows0 ++ [lastLine])
    (h2 : (hdrOf data).1.2 = some d) :
    (parse_blacklist data).writes =
      line1 (hdrOf data).1.1 :: line2 (parse_trailer lastLine).1 d ::
        blocksOf (dictOf (csvReadRows rows0 none).1) ∧
    List.Pairwise (· < ·) (pySorted (dictKeys (dictOf (csvReadRows rows0 none).1))) ∧
    (∀ c : String,
      lookupList (dictOf (csvReadRows rows0 none).1) c =
        entriesFor c (csvReadRows rows0 none).1) := by
  have hp := parse_blacklist_concat data rows0 lastLine h0 h1
  refine ⟨?_, pySorted_pairwise_lt _ (dictOf_keys_nodup _), fun c => dictOf_lookup _ c⟩
  simp [hp, finishBody, generate_report, h2]

/-- Witness for C3 at a document whose categories arrive out of order
(`Zeta`, `Alpha`, `Zeta`). -/
theorem claim_C3_witness :
    pyFind c3doc field_list ≠ 0 ∧
    rowsOf c3doc =
      ["9.9.9.9,443,Zeta", "1.1.1.1,80,Alpha", "2.2.2.2,81,Zeta"] ++ ["# Number of entries: 3"] ∧
    (hdrOf c3doc).1.2 = some ⟨2016, 1, 1, 12, 0, 0⟩ ∧
    ((parse_blacklist c3doc).writes =
      line1 (hdrOf c3doc).1.1 ::
        line2 (parse_trailer "# Number of entries: 3").1 ⟨2016, 1, 1, 12, 0, 0⟩ ::
        blocksOf (dictOf
          (csvReadRows ["9.9.9.9,443,Zeta", "1.1.1.1,80,Alpha", "2.2.2.2,81,Zeta"] none).1) ∧
     List.Pairwise (· < ·)
       (pySorted (dictKeys (dictOf
         (csvReadRows ["9.9.9.9,443,Zeta", "1.1.1.1,80,Alpha", "2.2.2.2,81,Zeta"] none).1))) ∧
     (∀ c : String,
       lookupList (dictOf
           (csvReadRows ["9.9.9.9,443,Zeta", "1.1.1.1,80,Alpha", "2.2.2.2,81,Zeta"] none).1) c =
         entriesFor c
           (csvReadRows ["9.9.9.9,443,Zeta", "1.1.1.1,80,Alpha", "2.2.2.2,81,Zeta"] none).1)) :=
  ⟨by decide, by decide, by decide,
   claim_C3_ordering c3doc ["9.9.9.9,443,Zeta", "1.1.1.1,80,Alpha", "2.2.2.2,81,Zeta"]
     "# Number of entries: 3" ⟨2016, 1, 1, 12, 0, 0⟩ (by decide) (by decide) (by decide)⟩

/-! ## Character-level facts used to locate section headers in the output -/

/-- Lines produced by the `splitlines` worker contain no newline
character. -/
theorem splitlinesAux_no_newline (cs : List Char) : ∀ acc : List Char,
    (∀ a ∈ acc, a ≠ '\n') →
    ∀ l ∈ splitlinesAux cs acc, ∀ ch ∈ l.data, ch ≠ '\n' := by
  induction cs with
  | nil =>
    intro acc hok l hl
    simp only [splitlinesAux] at hl
    by_cases hacc : acc.isEmpty
    · rw [if_pos hacc] at hl
      exact absurd hl (List.not_mem_nil l)
    · rw [if_neg hacc] at hl
      rw [List.mem_singleton] at hl
      subst hl
      intro ch hch
      exact hok ch hch
  | cons c rest ih =>
    intro acc hok l hl
    simp only [splitlinesAux] at hl
    by_cases hbr : isLineBreak c
    · rw [if_pos hbr] at hl
      rcases List.mem_cons.mp hl with rfl | hl
      · intro ch hch
        exact hok ch hch
      · exact ih [] (by simp) l hl
    · rw [if_neg hbr] at hl
      have hcne : c ≠ '\n' := by
        intro hc
        subst hc
        exact hbr (by decide)
      refine ih (acc ++ [c]) ?_ l hl
      intro a ha
      rcases List.mem_append.mp ha with ha | ha
      · exact hok a ha
      · rw [List.mem_singleton] at ha
        subst ha
        exact hcne

theorem pySplitlines_no_newline (s : String) (l : String) (hl : l ∈ pySplitlines s) :
    ∀ ch ∈ l.data, ch ≠ '\n' :=
  splitlinesAux_no_newline (normCRLF s.data) [] (by simp) l hl

/-- Every character of every field produced by the line machine — whether
the line completes a record or leaves a quoted field open — satisfies `P`
whenever the input characters and the initial accumulators do. -/
theorem csvAux_chars (P : Char → Prop) (cs : List Char) :
    ∀ (state : Nat) (field : List Char) (acc : List String),
    (∀ ch ∈ cs, P ch) → (∀ ch ∈ field, P ch) →
    (∀ g ∈ acc, ∀ ch ∈ g.data, P ch) →
    (∀ fields, csvAux cs state field acc = CsvLineResult.record fields →
      ∀ f ∈ fields, ∀ ch ∈ f.data, P ch) ∧
    (∀ acc2 field2, csvAux cs state field acc = CsvLineResult.continued acc2 field2 →
      (∀ g ∈ acc2, ∀ ch ∈ g.data, P ch) ∧ (∀ ch ∈ field2, P ch)) := by
  induction cs with
  | nil =>
    intro state field acc hcs hfield hacc
    simp only [csvAux]
    by_cases hs : state = 2
    · rw [if_pos hs]
      constructor
      · intro fields heq
        exact CsvLineResult.noConfusion heq
      · intro acc2 field2 heq
        injection heq with e1 e2
        subst e1
        subst e2
        exact ⟨hacc, hfield⟩
    · rw [if_neg hs]
      constructor
      · intro fields heq
        injection heq with e1
        subst e1
        intro f hf ch hch
        rcases List.mem_append.mp hf with h2 | h2
        · exact hacc f h2 ch hch
        · rw [List.mem_singleton] at h2
          subst h2
          exact hfield ch hch
      · intro acc2 field2 heq
        exact CsvLineResult.noConfusion heq
  | cons c rest ih =>
    intro state field acc hcs hfield hacc
    simp only [csvAux]
    split_ifs <;>
      first
      | exact ⟨fun fields hF => hF.elim, fun acc2 field2 hF => hF.elim⟩
      | (refine ih _ _ _ (fun ch hch => hcs ch (List.mem_cons_of_mem c hch)) ?_ ?_
         · first
           | exact hfield
           | (intro ch hch
              exact absurd hch (List.not_mem_nil ch))
           | (intro ch hch
              rcases List.mem_append.mp hch with h2 | h2
              · exact hfield ch h2
              · rw [List.mem_singleton] at h2
                rw [h2]
                exact hcs c (List.mem_cons_self c rest))
         · first
           | exact hacc
           | (intro g hg ch hch
              rcases List.mem_append.mp hg with h2 | h2
              · exact hacc g h2 ch hch
              · rw [List.mem_singleton] at h2
                subst h2
                exact hfield ch hch))

/-- Every character of every field of every row yielded by the reader
satisfies `P` whenever the input lines and the carried state do. -/
theorem csvReadRows_chars (P : Char → Prop) (lines : List String) :
    ∀ carry : Option (List String × List Char),
    (∀ l ∈ lines, ∀ ch ∈ l.data, P ch) →
    (∀ acc field, carry = some (acc, field) →
      (∀ g ∈ acc, ∀ ch ∈ g.data, P ch) ∧ (∀ ch ∈ field, P ch)) →
    ∀ r ∈ (csvReadRows lines carry).1, ∀ f ∈ r, ∀ ch ∈ f.data, P ch := by
  induction lines with
  | nil =>
    intro carry hlines hcarry r hr f hf ch hch
    rcases carry with _ | ⟨acc, field⟩
    · simp [csvReadRows] at hr
    · simp only [csvReadRows] at hr
      rw [List.mem_singleton] at hr
      subst hr
      rcases List.mem_append.mp hf with h2 | h2
      · exact (hcarry acc field rfl).1 f h2 ch hch
      · rw [List.mem_singleton] at h2
        subst h2
        exact (hcarry acc field rfl).2 ch hch
  | cons line rest ih =>
    intro carry hlines hcarry r hr f hf ch hch
    have hline : ∀ ch2 ∈ line.data, P ch2 := hlines line (List.mem_cons_self _ _)
    have hrest : ∀ l ∈ rest, ∀ ch2 ∈ l.data, P ch2 :=
      fun l hl => hlines l (List.mem_cons_of_mem _ hl)
    rcases carry with _ | ⟨acc, field⟩
    · simp only [csvReadRows] at hr
      by_cases hempty : line.data = []
      · rw [if_pos hempty] at hr
        rcases List.mem_cons.mp hr with rfl | hr
        · exact absurd hf (List.not_mem_nil f)
        · exact ih none hrest (fun a b h => nomatch h) r hr f hf ch hch
      · rw [if_neg hempty] at hr
        have haux := csvAux_chars P line.data 0 [] [] hline
          (fun ch2 hch2 => absurd hch2 (List.not_mem_nil ch2))
          (fun g hg => absurd hg (List.not_mem_nil g))
        cases hres : csvAux line.data 0 [] [] with
        | record r2 =>
          rw [hres] at hr
          rcases List.mem_cons.mp hr with rfl | hr
          · exact haux.1 r hres f hf ch hch
          · exact ih none hrest (fun a b h => nomatch h) r hr f hf ch hch
        | continued acc2 field2 =>
          rw [hres] at hr
          refine ih (some (acc2, field2)) hrest ?_ r hr f hf ch hch
          intro a b h
          have h2 := Option.some.inj h
          have ha : acc2 = a := congrArg Prod.fst h2
          have hb : field2 = b := congrArg Prod.snd h2
          subst ha
          subst hb
          exact haux.2 acc2 field2 hres
        | err =>
          rw [hres] at hr
          simp at hr
    · simp only [csvReadRows] at hr
      have hcf := hcarry acc field rfl
      have haux := csvAux_chars P line.data 2 field acc hline hcf.2 hcf.1
      cases hres : csvAux line.data 2 field acc with
      | record r2 =>
        rw [hres] at hr
        rcases List.mem_cons.mp hr with rfl | hr
        · exact haux.1 r hres f hf ch hch
        · exact ih none hrest (fun a b h => nomatch h) r hr f hf ch hch
      | continued acc2 field2 =>
        rw [hres] at hr
        refine ih (some (acc2, field2)) hrest ?_ r hr f hf ch hch
        intro a b h
        have h2 := Option.some.inj h
        have ha : acc2 = a := congrArg Prod.fst h2
        have hb : field2 = b := congrArg Prod.snd h2
        subst ha
        subst hb
        exact haux.2 acc2 field2 hres
      | err =>
        rw [hres] at hr
        simp at hr
/-- Stripping only removes characters. -/
theorem pyStrip_subset (c : Char) (s : String) (ch : Char)
    (h : ch ∈ (pyStrip c s).data) : ch ∈ s.data := by
  unfold pyStrip at h
  rw [List.mem_reverse] at h
  have h2 := (List.dropWhile_sublist _).subset h
  rw [List.mem_reverse] at h2
  exact (List.dropWhile_sublist _).subset h2

/-- The name produced by `parse_header` is line index 1, stripped. -/
theorem parse_header_name (lines : List String) (s : String)
    (h : (parse_header lines).1.1 = some s) :
    1 < lines.length ∧ s = pyStrip ' ' (pyStrip '#' (lines.getD 1 "")) := by
  by_cases hlen : lines.length < 3
  · simp [parse_header, hlen] at h
  · refine ⟨by omega, ?_⟩
    simp only [parse_header, if_neg hlen] at h
    cases hst : strptimeLastUpdated (pyStrip ' ' (pyStrip '#' (lines.getD 2 ""))) with
    | some t =>
      rw [hst] at h
      simp at h
      rw [List.getD_eq_getElem?_getD]
      exact h.symm
    | none =>
      rw [hst] at h
      simp at h
      rw [List.getD_eq_getElem?_getD]
      exact h.symm

/-- The report name contains no newline: it is built from one line of the
header region. -/
theorem hdr_name_no_newline (data : String) (s : String)
    (h : (hdrOf data).1.1 = some s) : ∀ ch ∈ s.data, ch ≠ '\n' := by
  unfold hdrOf at h
  obtain ⟨hlt, hs⟩ := parse_header_name _ s h
  subst hs
  intro ch hch
  have h1 := pyStrip_subset ' ' _ ch hch
  have h2 := pyStrip_subset '#' _ ch h1
  have hmem : (pySplitlines (pySliceTo data (pyFind data field_list))).getD 1 "" ∈
      pySplitlines (pySliceTo data (pyFind data field_list)) := by
    rw [List.getD_eq_getElem?_getD, List.getElem?_eq_getElem hlt]
    exact List.getElem_mem hlt
  exact pySplitlines_no_newline _ _ hmem ch h2

theorem data_sectionHeader (c : String) :
    (sectionHeader c).data = '\n' :: '=' :: '=' :: '=' :: ' ' :: (c.data ++ " ===\n".data) :=
  rfl

theorem sectionHeader_head (c : String) : (sectionHeader c).data.head? = some '\n' := by
  rw [data_sectionHeader]
  rfl

/-- A write whose first character is not a newline is not a section
header. -/
theorem sectionHeader_ne_of_head (c : String) (s : String)
    (hs : s.data.head? ≠ some '\n') : sectionHeader c ≠ s := by
  intro he
  apply hs
  rw [← he]
  exact sectionHeader_head c

theorem sectionHeader_inj (a b : String) (h : sectionHeader a = sectionHeader b) : a = b := by
  have hd := congrArg String.data h
  rw [data_sectionHeader, data_sectionHeader] at hd
  simp only [List.cons.injEq, true_and] at hd
  exact congrArg String.mk (List.append_cancel_right hd)

/-- The name line starts with the name (or `None`, or the literal space),
never with a newline. -/
theorem line1_head_ne (name : Option String)
    (hname : ∀ s2, name = some s2 → ∀ ch ∈ s2.data, ch ≠ '\n') :
    (line1 name).data.head? ≠ some '\n' := by
  cases name with
  | none =>
    intro h
    exact absurd h (by decide)
  | some s2 =>
    have hd : (line1 (some s2)).data = s2.data ++ " Blacklist Report\n".data := rfl
    rw [hd]
    cases hsd : s2.data with
    | nil =>
      intro h
      have h2 : (' ' : Char) = '\n' := Option.some.inj h
      exact absurd h2 (by decide)
    | cons ch2 rest =>
      intro h
      have h2 : ch2 = '\n' := Option.some.inj h
      refine hname s2 rfl ch2 ?_ h2
      rw [hsd]
      exact List.mem_cons_self _ _

/-- The count line starts with the literal open parenthesis. -/
theorem line2_head_ne (num : Int) (t : PyDatetime) :
    (line2 num t).data.head? ≠ some '\n' := by
  intro h
  have h2 : ('(' : Char) = '\n' := Option.some.inj h
  exact absurd h2 (by decide)

/-- An entry write starts with the destination IP (or the literal colon),
never with a newline. -/
theorem entryLine_head_ne (e : String × String)
    (he : ∀ ch ∈ e.1.data, ch ≠ '\n') :
    (entryLine e).data.head? ≠ some '\n' := by
  have hd : (entryLine e).data = e.1.data ++ (":".data ++ (e.2.data ++ "\n".data)) := by
    show ((e.1 ++ ":" ++ e.2) ++ "\n").data = _
    rw [String.data_append, String.data_append, String.data_append]
    rw [List.append_assoc, List.append_assoc]
  rw [hd]
  cases hsd : e.1.data with
  | nil =>
    intro h
    have h2 : (':' : Char) = '\n' := Option.some.inj h
    exact absurd h2 (by decide)
  | cons ch2 rest =>
    intro h
    have h2 : ch2 = '\n' := Option.some.inj h
    refine he ch2 ?_ h2
    rw [hsd]
    exact List.mem_cons_self _ _

/-- A section header for a category that is not a key of the dictionary
never appears among the writes of `generate_report`. -/
theorem sectionHeader_not_mem_generate (name : Option String) (num : Int)
    (dt : Option PyDatetime) (dict : Dict) (c : String)
    (hname : ∀ s2, name = some s2 → ∀ ch ∈ s2.data, ch ≠ '\n')
    (hdict : ∀ k e, k ∈ dictKeys dict → e ∈ lookupList dict k → ∀ ch ∈ e.1.data, ch ≠ '\n')
    (hc : c ∉ dictKeys dict) :
    sectionHeader c ∉ (generate_report name num dt dict).1 := by
  intro hmem
  cases dt with
  | none =>
    simp only [generate_report] at hmem
    rw [List.mem_singleton] at hmem
    exact sectionHeader_ne_of_head c (line1 name) (line1_head_ne name hname) hmem
  | some t =>
    simp only [generate_report] at hmem
    rcases List.mem_cons.mp hmem with h1 | hmem
    · exact sectionHeader_ne_of_head c _ (line1_head_ne name hname) h1
    rcases List.mem_cons.mp hmem with h2 | hmem
    · exact sectionHeader_ne_of_head c _ (line2_head_ne num t) h2
    unfold blocksOf at hmem
    rcases List.mem_flatMap.mp hmem with ⟨k, hk, hmem2⟩
    have hkmem : k ∈ dictKeys dict := (pySorted_perm (dictKeys dict)).subset hk
    rcases List.mem_cons.mp hmem2 with h3 | h3
    · exact hc ((sectionHeader_inj c k h3) ▸ hkmem)
    · rcases List.mem_map.mp h3 with ⟨e, he, hee⟩
      exact sectionHeader_ne_of_head c _
        (entryLine_head_ne e (hdict k e hkmem he)) hee.symm

/-- Claim C10: whenever the marker check does not fire, `parse_blacklist`
removes the final line after the marker (`rows.pop()`) before CSV parsing,
whether or not that line matches the trailer pattern.  In a document with no
trailer, a valid 3-field data row that happens to be the last line is parsed
as the trailer instead: `declaredCount` becomes `-1`, the row enters no
category bucket (the dictionary is built from the rows `csv.reader` yields
from the earlier lines only), and its category section is absent from the
rendered report when no row the reader yields from the earlier lines uses
that category. -/
theorem claim_C10_pop_removes_last (data : String) (rows0 : List String) (lastLine : String)
    (ip port c : String)
    (h0 : pyFind data field_list ≠ 0)
    (h1 : rowsOf data = rows0 ++ [lastLine])
    (h3 : reMatchTrailer lastLine = none)
    (h4 : csvReadRows [lastLine] none = ([[ip, port, c]], false))
    (h5 : c ∉ dictKeys (dictOf (csvReadRows rows0 none).1)) :
    parse_blacklist data =
      finishBody (hdrOf data) (-1, ["Trailer in blacklist not formatted as expected"]) rows0 ∧
    sectionHeader c ∉ (parse_blacklist data).writes := by
  have ht : parse_trailer lastLine = (-1, ["Trailer in blacklist not formatted as expected"]) := by
    unfold parse_trailer
    rw [h3]
  have hp := parse_blacklist_concat data rows0 lastLine h0 h1
  rw [ht] at hp
  refine ⟨hp, ?_⟩
  rw [hp]
  show sectionHeader c ∉
    (generate_report (hdrOf data).1.1 (-1) (hdrOf data).1.2
      (dictOf (csvReadRows rows0 none).1)).1
  apply sectionHeader_not_mem_generate _ _ _ _ _ ?_ ?_ h5
  · intro s2 hs2
    exact hdr_name_no_newline data s2 hs2
  · intro k e hkmem he ch hch
    rw [dictOf_lookup] at he
    rcases List.mem_filterMap.mp he with ⟨r, hr, hfr⟩
    have hrows : ∀ l ∈ rows0, ∀ ch2 ∈ l.data, ch2 ≠ '\n' := by
      intro l hl
      have hmem : l ∈ pySplitlines
          (pySliceFrom data (pyFind data field_list + (field_list.length : Int))) := by
        have h2 : l ∈ rows0 ++ [lastLine] := List.mem_append_left _ hl
        rw [← h1] at h2
        exact h2
      exact pySplitlines_no_newline _ l hmem
    have hfields : ∀ f ∈ r, ∀ ch2 ∈ f.data, ch2 ≠ '\n' :=
      csvReadRows_chars (fun ch2 => ch2 ≠ '\n') rows0 none hrows (fun a b h => nomatch h) r hr
    rcases r with _ | ⟨ip2, l2⟩
    · simp at hfr
    rcases l2 with _ | ⟨port2, l3⟩
    · simp at hfr
    rcases l3 with _ | ⟨desc2, l4⟩
    · simp at hfr
    rcases l4 with _ | ⟨x, t2⟩
    · have hfr2 : (if desc2 = k then some (ip2, port2) else none) = some e := hfr
      by_cases hdk : desc2 = k
      · rw [if_pos hdk] at hfr2
        have he2 : e = (ip2, port2) := (Option.some.inj hfr2).symm
        subst he2
        exact hfields ip2 (List.mem_cons_self _ _) ch hch
      · rw [if_neg hdk] at hfr2
        exact absurd hfr2 (by simp)
    · simp at hfr

/-- Witness for C10: the last line `5.6.7.8,80,Bar` is a valid data row of
a fresh category, yet the `Bar` section is absent and the count renders as
`-1`. -/
theorem claim_C10_witness :
    pyFind c10doc field_list ≠ 0 ∧
    rowsOf c10doc = ["1.2.3.4,443,Foo"] ++ ["5.6.7.8,80,Bar"] ∧
    reMatchTrailer "5.6.7.8,80,Bar" = none ∧
    csvReadRows ["5.6.7.8,80,Bar"] none = ([["5.6.7.8", "80", "Bar"]], false) ∧
    "Bar" ∉ dictKeys (dictOf (csvReadRows ["1.2.3.4,443,Foo"] none).1) ∧
    (parse_blacklist c10doc =
       finishBody (hdrOf c10doc) (-1, ["Trailer in blacklist not formatted as expected"])
         ["1.2.3.4,443,Foo"] ∧
     sectionHeader "Bar" ∉ (parse_blacklist c10doc).writes) :=
  ⟨by decide, by decide, by decide, by decide, by decide,
   claim_C10_pop_removes_last c10doc ["1.2.3.4,443,Foo"] "5.6.7.8,80,Bar"
     "5.6.7.8" "80" "Bar" (by decide) (by decide) (by decide) (by decide) (by decide)⟩
